import Mathlib

/-
Verification development for the yeniemlak.az crawler (src/scraper.py).

The crawl-control logic is embedded shallowly:
  * the checkpoint dictionary becomes the structure `Checkpoint`;
  * the discovery page walk (scrape_all_listings, lines 377-460) becomes
    `walkPages` / `discoveryRun`;
  * the retrying fetcher `get_page` (lines 128-151) becomes an event-trace
    function `getPageGo`, which records every shutdown-flag check, every
    HTTP attempt and every backoff sleep as an event; the shutdown flag is
    modelled as becoming set at event index `s` (it is set for every event
    whose index is at least `s`, matching a signal that arrives once and
    stays set);
  * the extraction loop (lines 467-527) becomes `extractLoop` (main pass),
    `retryLoop` (the single retry pass over same-run failures) and
    `finalSave`; the per-call fetch outcome is an oracle `Nat -> Bool`
    indexed by loop iteration, and the shutdown flag is modelled as being
    observed set at the top of iteration `i` exactly when `sd <= i`;
  * records are identified by the URL they were extracted from, since the
    claims only concern URL bookkeeping.
URLs are an arbitrary type with decidable equality; witnesses use `Nat`.
-/

namespace Scraper

/-- The checkpoint dictionary built by load_checkpoint / written by
save_checkpoint (scraper.py lines 77-103).  The code uses the phase strings
"collecting" (the spec calls it Discovering) and "scraping" (Extracting). -/
structure Checkpoint (α : Type) where
  completed_urls : List α
  pending_urls : List α
  last_page : Nat
  total_pages : Nat
  completed_listings : Nat
  phase : String
deriving DecidableEq, Repr

variable {α : Type} [DecidableEq α]

/-- Default checkpoint returned by load_checkpoint when no file exists
(lines 87-94). -/
def initialCheckpoint (α : Type) : Checkpoint α :=
  { completed_urls := []
    pending_urls := []
    last_page := 0
    total_pages := 0
    completed_listings := 0
    phase := "collecting" }

/-- The branch test at line 379: the discovery phase runs iff
`checkpoint.get('phase') == 'collecting' or not checkpoint.get('pending_urls')`.
Discovery is skipped (straight to extraction) iff this is false. -/
def runsDiscovery (cp : Checkpoint α) : Bool :=
  cp.phase == "collecting" || cp.pending_urls.isEmpty

/-- Python `set.add` modelled on membership lists: append if absent. -/
def setAdd (s : List α) (u : α) : List α :=
  if u ∈ s then s else s ++ [u]

/-- The deduplication pass of lines 437-443: keep a url iff it is neither in
the running `seen` set nor in `completed_urls`. -/
def buildUnique (completed : List α) : List α → List α → List α
  | _, [] => []
  | seen, u :: rest =>
    if u ∈ seen ∨ u ∈ completed then buildUnique completed seen rest
    else u :: buildUnique completed (u :: seen) rest

/-- `unique_urls` as built at lines 437-443 from the raw discovered list. -/
def uniqueUrls (completed urls : List α) : List α :=
  buildUnique completed [] urls

/-- The page numbers `range(a, b+1)` walked by the discovery loop. -/
def pageRange (a b : Nat) : List Nat :=
  List.range' a (b + 1 - a)

/-- The discovery page walk of lines 418-435.  `pl p` is the listing-url list
extracted from directory page `p`; the shutdown flag is observed set at the
top of the iteration for page `p` exactly when `sd ≤ p` (the walk visits
strictly increasing pages, so this models a flag that is set once and stays
set).  Returns (urls collected, final last_page, interrupted). -/
def walkPages (pl : Nat → List α) (sd : Nat) : List Nat → Nat → List α × Nat × Bool
  | [], lastp => ([], lastp, false)
  | p :: ps, lastp =>
    if sd ≤ p then ([], lastp, true)
    else
      let r := walkPages pl sd ps p
      (pl p ++ r.1, r.2.1, r.2.2)

/-- The discovery phase, lines 384-447, assuming the initial directory page
fetch succeeded (its extracted urls are the parameter `firstUrls`, and
`resolvedTotal` is `total_pages` after the `end_page` cap of line 397).
Faithful points: `resume_page = max(last_page, start_page)` (line 405); the
first-page urls are used and `last_page` set to the literal 1 only when
`resume_page == start_page` (lines 410-415); the loop runs over
`range(max(resume_page, start_page+1), total_pages+1)` (line 418); after the
walk - interrupted or not - lines 437-447 deduplicate, store `pending_urls`,
set `phase = 'scraping'` and save.  Returns the persisted checkpoint and
whether the walk was interrupted by the shutdown flag. -/
def discoveryRun (cp0 : Checkpoint α) (firstUrls : List α) (pl : Nat → List α)
    (resolvedTotal startPage sd : Nat) : Checkpoint α × Bool :=
  let resumePage := max cp0.last_page startPage
  let fUrls := if resumePage = startPage then firstUrls else []
  let lastp0 := if resumePage = startPage then 1 else cp0.last_page
  let w := walkPages pl sd (pageRange (max resumePage (startPage + 1)) resolvedTotal) lastp0
  let uniq := uniqueUrls cp0.completed_urls (fUrls ++ w.1)
  ({ cp0 with
      total_pages := resolvedTotal
      last_page := w.2.1
      pending_urls := uniq
      phase := "scraping" }, w.2.2)

/-- Lines 457-460: if the shutdown flag is set after the discovery block, the
orchestrator saves progress and the checkpoint and returns the accumulated
record list (which at that point is exactly the list loaded from the
progress file).  Returns (persisted checkpoint, returned records). -/
def scrapeInterruptedAtDiscovery (cp0 : Checkpoint α) (listings0 firstUrls : List α)
    (pl : Nat → List α) (resolvedTotal startPage sd : Nat) : Checkpoint α × List α :=
  ((discoveryRun cp0 firstUrls pl resolvedTotal startPage sd).1, listings0)

/-- Outcome of one HTTP attempt inside get_page (lines 134-150). -/
inductive AttemptOutcome
  | ok (body : String)
  | status429
  | statusOther (code : Nat)
  | timeout
  | exc
deriving DecidableEq, Repr

/-- Events of the get_page model: a shutdown-flag check, an HTTP attempt, or
a backoff sleep of a given duration in seconds. -/
inductive FetchEv
  | check
  | fetch
  | sleep (d : Nat)
deriving DecidableEq, Repr

/-- The rate-limit wait of line 139: `wait_time = 10 * (attempt + 1)` with the
0-based loop variable `attempt`; base_wait is 10 seconds. -/
def rateLimitWait (attempt : Nat) : Nat :=
  10 * (attempt + 1)

/-- The sleep performed after a failed attempt, by outcome (lines 137-150):
429 sleeps `10 * (attempt + 1)`; a timeout sleeps 5; another exception sleeps
3 but only when `attempt < retries - 1`; another HTTP status sleeps nothing. -/
def sleepAfter (retries attempt : Nat) : AttemptOutcome → Option Nat
  | .ok _ => none
  | .status429 => some (rateLimitWait attempt)
  | .statusOther _ => none
  | .timeout => some 5
  | .exc => if attempt + 1 < retries then some 3 else none

/-- Event trace and result of get_page (lines 128-151).  Arguments: remaining
loop iterations, 0-based attempt index `a`, running event index `c`.  Each
iteration first emits a `check` event (line 131); the flag is set for events
with index `≥ s`, so the check aborts with result `none` iff `s ≤ c`.
Otherwise a `fetch` event is emitted; on outcome `ok` the body is returned,
on any failure the outcome-specific sleep event (if any) is emitted and the
loop continues.  Exhausting the loop returns `none` (line 151). -/
def getPageGo (out : Nat → AttemptOutcome) (retries s : Nat) :
    Nat → Nat → Nat → List FetchEv × Option String
  | 0, _, _ => ([], none)
  | rem + 1, a, c =>
    if s ≤ c then ([FetchEv.check], none)
    else
      match out a with
      | .ok b => ([FetchEv.check, FetchEv.fetch], some b)
      | o =>
        let evs := [FetchEv.check, FetchEv.fetch] ++
          (match sleepAfter retries a o with
           | some d => [FetchEv.sleep d]
           | none => [])
        let r := getPageGo out retries s rem (a + 1) (c + evs.length)
        (evs ++ r.1, r.2)

/-- Full event trace of one get_page call. -/
def getPageTrace (out : Nat → AttemptOutcome) (retries s : Nat) : List FetchEv :=
  (getPageGo out retries s retries 0 0).1

/-- Result value of one get_page call (page text, or None for every failure
mode - get_page never raises). -/
def getPageResult (out : Nat → AttemptOutcome) (retries s : Nat) : Option String :=
  (getPageGo out retries s retries 0 0).2

/-- Number of HTTP attempts actually issued in a trace. -/
def countFetch : List FetchEv → Nat
  | [] => 0
  | .fetch :: rest => countFetch rest + 1
  | _ :: rest => countFetch rest

/-- In-memory state of the extraction phase: `all_listings` (records are
identified by their url), the `completed_urls` set, `scraped_count`, and the
same-run `failed_urls` list (lines 467-470). -/
structure ExtState (α : Type) where
  listings : List α
  completed : List α
  scraped : Nat
  failed : List α
deriving DecidableEq, Repr

/-- One iteration body of the main extraction loop, lines 477-485: on a
successful fetch+extract append the record, add the url to the completed set
and bump the counter; on failure append the url to `failed_urls`. -/
def extractStep (st : ExtState α) (u : α) (okFetch : Bool) : ExtState α :=
  if okFetch then
    { st with
      listings := st.listings ++ [u]
      completed := setAdd st.completed u
      scraped := st.scraped + 1 }
  else { st with failed := st.failed ++ [u] }

/-- The checkpoint written by the periodic save of lines 492-496:
`completed_urls = list(completed_urls)`, `pending_urls = unique_urls[i+1:]`
(a positional suffix), `completed_listings = len(all_listings)`. -/
def periodicCp (cp : Checkpoint α) (st : ExtState α) (uniq : List α) (i : Nat) :
    Checkpoint α :=
  { cp with
    completed_urls := st.completed
    pending_urls := uniq.drop (i + 1)
    completed_listings := st.listings.length }

/-- The main extraction loop, lines 472-502.  `uniq` is the full
`unique_urls` list, `out i` the fetch+extract outcome of iteration `i`, and
the shutdown flag is observed set at the top of iteration `i` iff `sd ≤ i`.
The periodic save fires when `(i+1) % interval == 0` (interval is the
constant CHECKPOINT_INTERVAL = 25 in the code).  Returns the final in-memory
state, the checkpoint dictionary, the list of checkpoints persisted by the
periodic save in order, and whether the loop broke on the shutdown flag. -/
def extractLoop (out : Nat → Bool) (sd interval : Nat) (uniq : List α) :
    Nat → List α → ExtState α → Checkpoint α → List (Checkpoint α) →
    ExtState α × Checkpoint α × List (Checkpoint α) × Bool
  | _, [], st, cp, saves => (st, cp, saves, false)
  | i, u :: rest, st, cp, saves =>
    if sd ≤ i then (st, cp, saves, true)
    else
      let st1 := extractStep st u (out i)
      if (i + 1) % interval = 0 then
        let cp1 := periodicCp cp st1 uniq i
        extractLoop out sd interval uniq (i + 1) rest st1 cp1 (saves ++ [cp1])
      else
        extractLoop out sd interval uniq (i + 1) rest st1 cp saves

/-- One iteration body of the retry pass, lines 510-518: on success append
the record, add to completed and remove the url from `failed_urls`
(`list.remove`, i.e. first occurrence); on failure leave the state alone. -/
def retryStep (st : ExtState α) (u : α) (okFetch : Bool) : ExtState α :=
  if okFetch then
    { st with
      listings := st.listings ++ [u]
      completed := setAdd st.completed u
      failed := st.failed.erase u }
  else st

/-- The retry pass of lines 504-518, iterating over the snapshot
`failed_urls[:]`; the shutdown flag is observed set at the top of retry
iteration `i` iff `sd2 ≤ i`. -/
def retryLoop (out2 : Nat → Bool) (sd2 : Nat) : Nat → List α → ExtState α → ExtState α
  | _, [], st => st
  | i, u :: rest, st =>
    if sd2 ≤ i then st
    else retryLoop out2 sd2 (i + 1) rest (retryStep st u (out2 i))

/-- The final save of lines 520-524: `completed_urls = list(completed_urls)`,
`pending_urls = [u for u in unique_urls if u not in completed_urls]`,
`completed_listings = len(all_listings)`. -/
def finalSave (cp : Checkpoint α) (uniq : List α) (st : ExtState α) : Checkpoint α :=
  { cp with
    completed_urls := st.completed
    pending_urls := uniq.filter fun u => decide (u ∉ st.completed)
    completed_listings := st.listings.length }

/-- Result of one run of the extraction phase. -/
structure ExtractResult (α : Type) where
  st : ExtState α
  finalCp : Checkpoint α
  saves : List (Checkpoint α)
  interrupted : Bool
deriving DecidableEq, Repr

/-- The whole extraction phase of one run (lines 462-527): the in-memory
completed set starts as `set(checkpoint['completed_urls'])` (line 368) and
`all_listings` as the loaded progress list; then the main loop runs; the
retry pass runs only when the failure list is non-empty and the shutdown
flag is not set (line 505); the final save always runs. -/
def extractPhase (out1 out2 : Nat → Bool) (sd1 sd2 interval : Nat)
    (cp : Checkpoint α) (listings0 uniq : List α) : ExtractResult α :=
  match extractLoop out1 sd1 interval uniq 0 uniq
      ⟨listings0, cp.completed_urls, 0, []⟩ cp [] with
  | (st1, cp1, saves1, intr) =>
    let st2 := if st1.failed.isEmpty || intr then st1
      else retryLoop out2 sd2 0 st1.failed st1
    ⟨st2, finalSave cp1 uniq st2, saves1, intr⟩

/-- The decision of main(), lines 612-618: the checkpoint and progress files
are removed iff the returned listing list is non-empty and the shutdown flag
was never set (the cleanup call is nested under `if listings:` and guarded
by `if not shutdown_requested:`). -/
def cleanupHappens (listings : List α) (shutdownFlag : Bool) : Bool :=
  !listings.isEmpty && !shutdownFlag

/-- The extraction loop with the semaphore of lines 340-347, 467 made
explicit.  `fetch_listing` runs under `async with semaphore` with `K` slots;
because the orchestrating loop awaits each `fetch_listing` call before the
next iteration (line 478), at most one unit ever holds a slot.  A slot is
acquired when one is free; with `K = 0` the unit would block forever, which
the model returns as `none`.  The accumulator `m` tracks the maximum number
of units simultaneously holding a slot. -/
def extractLoopSem (K : Nat) (out : Nat → Bool) (sd : Nat) :
    Nat → List α → List α × List α × List α → Nat →
    Option ((List α × List α × List α) × Nat)
  | _, [], s, m => some (s, m)
  | i, u :: rest, s, m =>
    if sd ≤ i then some (s, m)
    else if K = 0 then none
    else
      let m1 := max m 1
      if out i then
        extractLoopSem K out sd (i + 1) rest (s.1 ++ [u], setAdd s.2.1 u, s.2.2) m1
      else
        extractLoopSem K out sd (i + 1) rest (s.1, s.2.1, s.2.2 ++ [u]) m1

/-- Modelled from the spec side of the refinement claim: the extraction loop
as a plain sequential fold over the pending urls, with no concurrency
machinery at all, accumulating (records, completed set, failure list). -/
def extractFoldSeq (out : Nat → Bool) (sd : Nat) :
    Nat → List α → List α × List α × List α → List α × List α × List α
  | _, [], s => s
  | i, u :: rest, s =>
    if sd ≤ i then s
    else if out i then
      extractFoldSeq out sd (i + 1) rest (s.1 ++ [u], setAdd s.2.1 u, s.2.2)
    else
      extractFoldSeq out sd (i + 1) rest (s.1, s.2.1, s.2.2 ++ [u])

/-! ## Helper lemmas -/

lemma mem_setAdd {s : List α} {u v : α} : v ∈ setAdd s u ↔ v ∈ s ∨ v = u := by
  by_cases h : u ∈ s
  · simp only [setAdd, if_pos h]
    constructor
    · exact Or.inl
    · rintro (hv | rfl)
      · exact hv
      · exact h
  · simp [setAdd, if_neg h]

lemma mem_buildUnique_not_completed {completed : List α} :
    ∀ (urls seen : List α) (u : α), u ∈ buildUnique completed seen urls → u ∉ completed := by
  intro urls
  induction urls with
  | nil =>
    intro seen u h
    simp [buildUnique] at h
  | cons v rest ih =>
    intro seen u h
    simp only [buildUnique] at h
    split at h
    · exact ih seen u h
    · rename_i hcond
      rcases List.mem_cons.mp h with rfl | h2
      · intro hc
        exact hcond (Or.inr hc)
      · exact ih (v :: seen) u h2

lemma drop_succ_of_drop_cons {β : Type} {l : List β} {i : Nat} {u : β} {rest : List β}
    (h : l.drop i = u :: rest) : l.drop (i + 1) = rest := by
  have h2 := List.drop_drop 1 i l
  rw [h] at h2
  simpa using h2.symm

lemma lt_length_of_drop_cons {β : Type} {l : List β} {i : Nat} {u : β} {rest : List β}
    (h : l.drop i = u :: rest) : i < l.length := by
  by_contra hc
  rw [List.drop_eq_nil_of_le (by omega)] at h
  exact List.noConfusion h

lemma mem_of_drop_cons {β : Type} {l : List β} {i : Nat} {u : β} {rest : List β}
    (h : l.drop i = u :: rest) : u ∈ l :=
  List.mem_of_mem_drop (h ▸ List.mem_cons_self u rest)

lemma not_mem_rest_of_drop_cons {β : Type} {l : List β} {i : Nat} {u : β} {rest : List β}
    (hnd : l.Nodup) (h : l.drop i = u :: rest) : u ∉ rest := by
  have hsub : List.Sublist (l.drop i) l := List.drop_sublist i l
  have : (u :: rest).Nodup := h ▸ hnd.sublist hsub
  exact (List.nodup_cons.mp this).1

lemma drop_append_singleton {β : Type} {l : List β} {u : β} {n : Nat} (h : n ≤ l.length) :
    (l ++ [u]).drop n = l.drop n ++ [u] := by
  rw [List.drop_append_eq_append_drop]
  have h0 : n - l.length = 0 := by omega
  rw [h0, List.drop_zero]

/-! ## Lemmas about the retrying fetcher get_page -/

lemma getPageGo_countFetch (out : Nat → AttemptOutcome) (retries s : Nat) :
    ∀ rem a c, countFetch (getPageGo out retries s rem a c).1 ≤ rem := by
  intro rem
  induction rem with
  | zero =>
    intro a c
    simp [getPageGo, countFetch]
  | succ n ih =>
    intro a c
    simp only [getPageGo]
    split
    · simp [countFetch]
    · split
      · simp [countFetch]
      · rename_i o hne
        simp only
        rcases hs : sleepAfter retries a (out a) with _ | d
        all_goals
          simp only [hs, List.cons_append, List.nil_append, countFetch]
          exact Nat.add_le_add_right (ih (a + 1) _) 1

lemma getPageGo_result_none (out : Nat → AttemptOutcome) (retries s : Nat)
    (hfail : ∀ i b, out i ≠ AttemptOutcome.ok b) :
    ∀ rem a c, (getPageGo out retries s rem a c).2 = none := by
  intro rem
  induction rem with
  | zero =>
    intro a c
    simp [getPageGo]
  | succ n ih =>
    intro a c
    simp only [getPageGo]
    split
    · rfl
    · split
      · rename_i b hb
        exact absurd hb (hfail a b)
      · simp only
        exact ih (a + 1) _

lemma getPageGo_fetch_le (out : Nat → AttemptOutcome) (retries s : Nat) :
    ∀ rem a c j, (getPageGo out retries s rem a c).1[j]? = some FetchEv.fetch →
      c + j ≤ s := by
  intro rem
  induction rem with
  | zero =>
    intro a c j hj
    simp [getPageGo] at hj
  | succ n ih =>
    intro a c j hj
    simp only [getPageGo] at hj
    by_cases hsc : s ≤ c
    · rw [if_pos hsc] at hj
      rcases j with _ | j <;> simp at hj
    · rw [if_neg hsc] at hj
      revert hj
      split
      · intro hj
        rcases j with _ | (_ | j)
        · simp at hj
        · omega
        · simp at hj
      · rename_i o hne
        simp only
        rcases hs : sleepAfter retries a (out a) with _ | d
        · intro hj
          simp only [hs, List.cons_append, List.nil_append, List.length_cons,
            List.length_nil] at hj
          rcases j with _ | (_ | j)
          · simp at hj
          · omega
          · simp only [List.getElem?_cons_succ] at hj
            have h4 := ih (a + 1) _ j hj
            omega
        · intro hj
          simp only [hs, List.cons_append, List.nil_append, List.length_cons,
            List.length_nil] at hj
          rcases j with _ | (_ | (_ | j))
          · simp at hj
          · omega
          · simp at hj
          · simp only [List.getElem?_cons_succ] at hj
            have h4 := ih (a + 1) _ j hj
            omega

/-! ## Lemmas about the extraction phase -/

/-- A checkpoint persisted by the periodic save stores as pending a
positional suffix of unique_urls. -/
def suffixSave (interval : Nat) (uniq : List α) (c : Checkpoint α) : Prop :=
  ∃ j, j < uniq.length ∧ (j + 1) % interval = 0 ∧ c.pending_urls = uniq.drop (j + 1)

/-- Disjointness of the two persisted url collections of a checkpoint. -/
def cpDisjoint (c : Checkpoint α) : Prop :=
  ∀ u ∈ c.pending_urls, u ∉ c.completed_urls

lemma extractLoop_basic (out : Nat → Bool) (sd interval : Nat) (uniq C0 : List α)
    (L0 : Nat) :
    ∀ rest i st cp saves st' cp' saves' intr,
      extractLoop out sd interval uniq i rest st cp saves = (st', cp', saves', intr) →
      uniq.drop i = rest →
      (∀ u, u ∈ st.completed ↔ (u ∈ C0 ∨ u ∈ st.listings.drop L0)) →
      L0 ≤ st.listings.length →
      (∀ u ∈ st.failed, u ∈ uniq) →
      ((∀ u, u ∈ st'.completed ↔ (u ∈ C0 ∨ u ∈ st'.listings.drop L0)) ∧
       L0 ≤ st'.listings.length ∧
       (∀ u ∈ st'.failed, u ∈ uniq) ∧
       (∀ c ∈ saves', c ∈ saves ∨ suffixSave interval uniq c) ∧
       cp'.phase = cp.phase) := by
  intro rest
  induction rest with
  | nil =>
    intro i st cp saves st' cp' saves' intr hE hdrop hiff hlen hfail
    simp only [extractLoop, Prod.mk.injEq] at hE
    obtain ⟨rfl, rfl, rfl, rfl⟩ := hE
    exact ⟨hiff, hlen, hfail, fun c hc => Or.inl hc, rfl⟩
  | cons u rest ih =>
    intro i st cp saves st' cp' saves' intr hE hdrop hiff hlen hfail
    have hdrop1 : uniq.drop (i + 1) = rest := drop_succ_of_drop_cons hdrop
    have hu : u ∈ uniq := mem_of_drop_cons hdrop
    have hilen : i < uniq.length := lt_length_of_drop_cons hdrop
    simp only [extractLoop] at hE
    by_cases hsd : sd ≤ i
    · rw [if_pos hsd] at hE
      simp only [Prod.mk.injEq] at hE
      obtain ⟨rfl, rfl, rfl, rfl⟩ := hE
      exact ⟨hiff, hlen, hfail, fun c hc => Or.inl hc, rfl⟩
    · rw [if_neg hsd] at hE
      have hiff1 : ∀ v, v ∈ (extractStep st u (out i)).completed ↔
          (v ∈ C0 ∨ v ∈ (extractStep st u (out i)).listings.drop L0) := by
        intro v
        by_cases ho : out i = true
        · simp only [extractStep, if_pos ho, mem_setAdd, drop_append_singleton hlen,
            List.mem_append, List.mem_singleton, hiff v]
          tauto
        · simp only [extractStep, if_neg ho]
          exact hiff v
      have hlen1 : L0 ≤ (extractStep st u (out i)).listings.length := by
        by_cases ho : out i = true
        · simp only [extractStep, if_pos ho, List.length_append]
          omega
        · simp only [extractStep, if_neg ho]
          exact hlen
      have hfail1 : ∀ v ∈ (extractStep st u (out i)).failed, v ∈ uniq := by
        intro v hv
        by_cases ho : out i = true
        · simp only [extractStep, if_pos ho] at hv
          exact hfail v hv
        · simp only [extractStep, if_neg ho, List.mem_append, List.mem_singleton] at hv
          rcases hv with hv | rfl
          · exact hfail v hv
          · exact hu
      by_cases hmod : (i + 1) % interval = 0
      · rw [if_pos hmod] at hE
        obtain ⟨h1, h2, h3, h4, h5⟩ := ih (i + 1) (extractStep st u (out i))
          (periodicCp cp (extractStep st u (out i)) uniq i)
          (saves ++ [periodicCp cp (extractStep st u (out i)) uniq i])
          st' cp' saves' intr hE hdrop1 hiff1 hlen1 hfail1
        refine ⟨h1, h2, h3, ?_, ?_⟩
        · intro c hc
          rcases h4 c hc with hc2 | hc2
          · rcases List.mem_append.mp hc2 with hc3 | hc3
            · exact Or.inl hc3
            · right
              have hceq : c = periodicCp cp (extractStep st u (out i)) uniq i :=
                List.mem_singleton.mp hc3
              exact ⟨i, hilen, hmod, by rw [hceq]; rfl⟩
          · exact Or.inr hc2
        · rw [h5]
          rfl
      · rw [if_neg hmod] at hE
        exact ih (i + 1) (extractStep st u (out i)) cp saves
          st' cp' saves' intr hE hdrop1 hiff1 hlen1 hfail1

lemma extractLoop_disjoint (out : Nat → Bool) (sd interval : Nat) (uniq C0 : List α)
    (hnd : uniq.Nodup) (hdisj : ∀ u ∈ uniq, u ∉ C0) :
    ∀ rest i st cp saves st' cp' saves' intr,
      extractLoop out sd interval uniq i rest st cp saves = (st', cp', saves', intr) →
      uniq.drop i = rest →
      (∀ v ∈ st.completed, v ∈ C0 ∨ (v ∈ uniq ∧ v ∉ uniq.drop i)) →
      (∀ c ∈ saves, cpDisjoint c) →
      (∀ c ∈ saves', cpDisjoint c) := by
  intro rest
  induction rest with
  | nil =>
    intro i st cp saves st' cp' saves' intr hE hdrop hinv hsaves
    simp only [extractLoop, Prod.mk.injEq] at hE
    obtain ⟨rfl, rfl, rfl, rfl⟩ := hE
    exact hsaves
  | cons u rest ih =>
    intro i st cp saves st' cp' saves' intr hE hdrop hinv hsaves
    have hdrop1 : uniq.drop (i + 1) = rest := drop_succ_of_drop_cons hdrop
    have hu : u ∈ uniq := mem_of_drop_cons hdrop
    have hurest : u ∉ rest := not_mem_rest_of_drop_cons hnd hdrop
    simp only [extractLoop] at hE
    by_cases hsd : sd ≤ i
    · rw [if_pos hsd] at hE
      simp only [Prod.mk.injEq] at hE
      obtain ⟨rfl, rfl, rfl, rfl⟩ := hE
      exact hsaves
    · rw [if_neg hsd] at hE
      have hinv1 : ∀ v ∈ (extractStep st u (out i)).completed,
          v ∈ C0 ∨ (v ∈ uniq ∧ v ∉ uniq.drop (i + 1)) := by
        intro v hv
        rw [hdrop1]
        by_cases ho : out i = true
        · simp only [extractStep, if_pos ho, mem_setAdd] at hv
          rcases hv with hv | rfl
          · rcases hinv v hv with h | ⟨h1, h2⟩
            · exact Or.inl h
            · refine Or.inr ⟨h1, fun hx => h2 ?_⟩
              rw [hdrop]
              exact List.mem_cons_of_mem u hx
          · exact Or.inr ⟨hu, hurest⟩
        · simp only [extractStep, if_neg ho] at hv
          rcases hinv v hv with h | ⟨h1, h2⟩
          · exact Or.inl h
          · refine Or.inr ⟨h1, fun hx => h2 ?_⟩
            rw [hdrop]
            exact List.mem_cons_of_mem u hx
      by_cases hmod : (i + 1) % interval = 0
      · rw [if_pos hmod] at hE
        refine ih (i + 1) (extractStep st u (out i))
          (periodicCp cp (extractStep st u (out i)) uniq i)
          (saves ++ [periodicCp cp (extractStep st u (out i)) uniq i])
          st' cp' saves' intr hE hdrop1 hinv1 ?_
        intro c hc
        rcases List.mem_append.mp hc with hc2 | hc2
        · exact hsaves c hc2
        · have hceq : c = periodicCp cp (extractStep st u (out i)) uniq i :=
            List.mem_singleton.mp hc2

          intro v hv hvc
          rw [hceq] at hv hvc
          simp only [periodicCp] at hv hvc
          rcases hinv1 v hvc with h | ⟨_, h2⟩
          · exact hdisj v (List.mem_of_mem_drop hv) h
          · exact h2 hv
      · rw [if_neg hmod] at hE
        exact ih (i + 1) (extractStep st u (out i)) cp saves
          st' cp' saves' intr hE hdrop1 hinv1 hsaves

lemma retryLoop_basic (out2 : Nat → Bool) (sd2 : Nat) (C0 : List α) (L0 : Nat) :
    ∀ snap i st,
      (∀ u, u ∈ st.completed ↔ (u ∈ C0 ∨ u ∈ st.listings.drop L0)) →
      L0 ≤ st.listings.length →
      ((∀ u, u ∈ (retryLoop out2 sd2 i snap st).completed ↔
          (u ∈ C0 ∨ u ∈ (retryLoop out2 sd2 i snap st).listings.drop L0)) ∧
        L0 ≤ (retryLoop out2 sd2 i snap st).listings.length) := by
  intro snap
  induction snap with
  | nil =>
    intro i st hiff hlen
    simp only [retryLoop]
    exact ⟨hiff, hlen⟩
  | cons u rest ih =>
    intro i st hiff hlen
    simp only [retryLoop]
    by_cases hsd : sd2 ≤ i
    · rw [if_pos hsd]
      exact ⟨hiff, hlen⟩
    · rw [if_neg hsd]
      refine ih (i + 1) (retryStep st u (out2 i)) ?_ ?_
      · intro v
        by_cases ho : out2 i = true
        · simp only [retryStep, if_pos ho, mem_setAdd, drop_append_singleton hlen,
            List.mem_append, List.mem_singleton, hiff v]
          tauto
        · simp only [retryStep, if_neg ho]
          exact hiff v
      · by_cases ho : out2 i = true
        · simp only [retryStep, if_pos ho, List.length_append]
          omega
        · simp only [retryStep, if_neg ho]
          exact hlen

lemma extractPhase_basic (out1 out2 : Nat → Bool) (sd1 sd2 interval : Nat)
    (cp : Checkpoint α) (listings0 uniq : List α) (R : ExtractResult α)
    (hR : extractPhase out1 out2 sd1 sd2 interval cp listings0 uniq = R) :
    ((∀ u, u ∈ R.st.completed ↔
        (u ∈ cp.completed_urls ∨ u ∈ R.st.listings.drop listings0.length)) ∧
     (∀ c ∈ R.saves, suffixSave interval uniq c) ∧
     R.finalCp.phase = cp.phase ∧
     R.finalCp.completed_urls = R.st.completed ∧
     R.finalCp.pending_urls = uniq.filter (fun u => decide (u ∉ R.st.completed))) := by
  subst hR
  rcases hE : extractLoop out1 sd1 interval uniq 0 uniq
    ⟨listings0, cp.completed_urls, 0, []⟩ cp [] with ⟨st1, cp1, saves1, intr⟩
  obtain ⟨h1, h2, h3, h4, h5⟩ := extractLoop_basic out1 sd1 interval uniq
    cp.completed_urls listings0.length uniq 0
    ⟨listings0, cp.completed_urls, 0, []⟩ cp [] st1 cp1 saves1 intr hE
    (by simp) (by intro u; simp [List.drop_length]) (by simp) (by simp)
  simp only [extractPhase, hE]
  by_cases hc : (st1.failed.isEmpty || intr) = true
  · rw [if_pos hc]
    refine ⟨h1, ?_, h5, rfl, rfl⟩
    intro c hcs
    rcases h4 c hcs with hx | hx
    · exact absurd hx (List.not_mem_nil c)
    · exact hx
  · rw [if_neg hc]
    obtain ⟨hr1, hr2⟩ := retryLoop_basic out2 sd2 cp.completed_urls listings0.length
      st1.failed 0 st1 h1 h2
    refine ⟨hr1, ?_, h5, rfl, rfl⟩
    intro c hcs
    rcases h4 c hcs with hx | hx
    · exact absurd hx (List.not_mem_nil c)
    · exact hx

lemma extractPhase_disjoint (out1 out2 : Nat → Bool) (sd1 sd2 interval : Nat)
    (cp : Checkpoint α) (listings0 uniq : List α) (R : ExtractResult α)
    (hR : extractPhase out1 out2 sd1 sd2 interval cp listings0 uniq = R)
    (hnd : uniq.Nodup) (hdisj : ∀ u ∈ uniq, u ∉ cp.completed_urls) :
    ∀ c ∈ R.saves, cpDisjoint c := by
  subst hR
  rcases hE : extractLoop out1 sd1 interval uniq 0 uniq
    ⟨listings0, cp.completed_urls, 0, []⟩ cp [] with ⟨st1, cp1, saves1, intr⟩
  have hsaves := extractLoop_disjoint out1 sd1 interval uniq cp.completed_urls hnd hdisj
    uniq 0 ⟨listings0, cp.completed_urls, 0, []⟩ cp [] st1 cp1 saves1 intr hE
    (by simp)
    (by intro v hv; exact Or.inl hv)
    (by intro c hc; exact absurd hc (List.not_mem_nil c))
  simp only [extractPhase, hE]
  exact hsaves

/-! ## Lemmas about the discovery phase -/

lemma discoveryRun_disjoint (cp0 : Checkpoint α) (firstUrls : List α) (pl : Nat → List α)
    (tp sp sd : Nat) : cpDisjoint (discoveryRun cp0 firstUrls pl tp sp sd).1 := by
  intro u hu
  exact mem_buildUnique_not_completed _ _ u hu

lemma discoveryRun_phase (cp0 : Checkpoint α) (firstUrls : List α) (pl : Nat → List α)
    (tp sp sd : Nat) : (discoveryRun cp0 firstUrls pl tp sp sd).1.phase = "scraping" :=
  rfl

lemma runsDiscovery_eq_isEmpty_of_phase {β : Type} {cp : Checkpoint β}
    (h : cp.phase = "scraping") :
    runsDiscovery cp = cp.pending_urls.isEmpty := by
  unfold runsDiscovery
  rw [h]
  rfl

/-! ## Lemmas about the semaphore refinement -/

lemma extractLoopSem_eq_fold (K : Nat) (hK : 1 ≤ K) (out : Nat → Bool) (sd : Nat) :
    ∀ (urls : List α) i s m0, ∃ m, m ≤ max m0 1 ∧
      extractLoopSem K out sd i urls s m0 = some (extractFoldSeq out sd i urls s, m) := by
  intro urls
  induction urls with
  | nil =>
    intro i s m0
    exact ⟨m0, le_max_left m0 1, by simp [extractLoopSem, extractFoldSeq]⟩
  | cons u rest ih =>
    intro i s m0
    have hK0 : ¬ K = 0 := by omega
    by_cases hsd : sd ≤ i
    · refine ⟨m0, le_max_left m0 1, ?_⟩
      simp only [extractLoopSem, extractFoldSeq, if_pos hsd]
    · by_cases ho : out i = true
      · obtain ⟨m, hm, heq⟩ := ih (i + 1) (s.1 ++ [u], setAdd s.2.1 u, s.2.2) (max m0 1)
        refine ⟨m, ?_, ?_⟩
        · calc m ≤ max (max m0 1) 1 := hm
            _ = max m0 1 := by rw [Nat.max_assoc, Nat.max_self]
        · simp only [extractLoopSem, extractFoldSeq, if_neg hsd, if_neg hK0, if_pos ho]
          exact heq
      · obtain ⟨m, hm, heq⟩ := ih (i + 1) (s.1, s.2.1, s.2.2 ++ [u]) (max m0 1)
        refine ⟨m, ?_, ?_⟩
        · calc m ≤ max (max m0 1) 1 := hm
            _ = max m0 1 := by rw [Nat.max_assoc, Nat.max_self]
        · simp only [extractLoopSem, extractFoldSeq, if_neg hsd, if_neg hK0, if_neg ho]
          exact heq

lemma extractLoopSem_K_irrelevant (K1 K2 : Nat) (h1 : 1 ≤ K1) (h2 : 1 ≤ K2)
    (out : Nat → Bool) (sd : Nat) :
    ∀ (urls : List α) i s m0,
      extractLoopSem K1 out sd i urls s m0 = extractLoopSem K2 out sd i urls s m0 := by
  intro urls
  induction urls with
  | nil =>
    intro i s m0
    rfl
  | cons u rest ih =>
    intro i s m0
    have hK1 : ¬ K1 = 0 := by omega
    have hK2 : ¬ K2 = 0 := by omega
    by_cases hsd : sd ≤ i
    · simp only [extractLoopSem, if_pos hsd]
    · by_cases ho : out i = true
      · simp only [extractLoopSem, if_neg hsd, if_neg hK1, if_neg hK2, if_pos ho]
        exact ih (i + 1) _ (max m0 1)
      · simp only [extractLoopSem, if_neg hsd, if_neg hK1, if_neg hK2, if_neg ho]
        exact ih (i + 1) _ (max m0 1)

/-! ## Claim C1 -/

/-- Concrete run for the C1 counterexample: 26 pending urls 0..25, the fetch
of url 0 fails, every later fetch succeeds, no shutdown, checkpoint interval
25 as in the code (CHECKPOINT_INTERVAL). -/
def c1Cp : Checkpoint Nat :=
  { completed_urls := []
    pending_urls := List.range 26
    last_page := 3
    total_pages := 3
    completed_listings := 0
    phase := "scraping" }

def c1Run : ExtractResult Nat :=
  extractPhase (fun i => decide (1 ≤ i)) (fun _ => false) 1000 1000 25 c1Cp []
    (List.range 26)

/-- C1 counterexample: the claim says every discovered URL is in exactly one
of the persisted completed_urls or pending_urls after any interrupt/resume
point.  In this run url 0 fails at iteration 0 and the periodic save at
iteration 24 persists completed = {1..24} and pending = the positional
suffix [25]: the discovered url 0 is in neither persisted set.  A process
kill right after that save therefore drops url 0, and since the persisted
checkpoint has phase scraping and non-empty pending, the next run skips
discovery (runsDiscovery = false) and never reconsiders url 0. -/
theorem checkpoint_drops_failed_url_counterexample :
    (0 : Nat) ∈ List.range 26 ∧
    c1Run.saves.length = 1 ∧
    (∀ c ∈ c1Run.saves,
      0 ∉ c.completed_urls ∧ 0 ∉ c.pending_urls ∧ runsDiscovery c = false) := by
  decide

/-- C1 amended: when the run ends through the code path that executes the
final save of lines 520-524 (normal end or graceful shutdown observed at the
top of the loop), the final persisted checkpoint partitions this run's
unique_urls - every such url is in exactly one of completed_urls and
pending_urls - and completed_urls holds exactly the urls completed before
the run plus the urls whose fetch+extract succeeded during the run (the
records appended to all_listings this run).  The original claim fails only
for a hard kill right after a periodic save, as the counterexample shows. -/
theorem graceful_final_checkpoint_partition (out1 out2 : Nat → Bool)
    (sd1 sd2 interval : Nat) (cp : Checkpoint α) (listings0 uniq : List α) :
    (∀ u ∈ uniq,
      (u ∈ (extractPhase out1 out2 sd1 sd2 interval cp listings0 uniq).finalCp.completed_urls ∧
       u ∉ (extractPhase out1 out2 sd1 sd2 interval cp listings0 uniq).finalCp.pending_urls) ∨
      (u ∈ (extractPhase out1 out2 sd1 sd2 interval cp listings0 uniq).finalCp.pending_urls ∧
       u ∉ (extractPhase out1 out2 sd1 sd2 interval cp listings0 uniq).finalCp.completed_urls)) ∧
    (∀ u, u ∈ (extractPhase out1 out2 sd1 sd2 interval cp listings0 uniq).finalCp.completed_urls ↔
      (u ∈ cp.completed_urls ∨
       u ∈ (extractPhase out1 out2 sd1 sd2 interval cp listings0 uniq).st.listings.drop
         listings0.length)) := by
  obtain ⟨h1, h2, h3, h4, h5⟩ :=
    extractPhase_basic out1 out2 sd1 sd2 interval cp listings0 uniq _ rfl
  constructor
  · intro u hu
    by_cases hc : u ∈ (extractPhase out1 out2 sd1 sd2 interval cp listings0 uniq).st.completed
    · left
      refine ⟨by rw [h4]; exact hc, ?_⟩
      rw [h5]
      intro hmem
      rw [List.mem_filter] at hmem
      exact absurd hc (by simpa using hmem.2)
    · right
      refine ⟨?_, by rw [h4]; exact hc⟩
      rw [h5, List.mem_filter]
      exact ⟨hu, by simpa using hc⟩
  · intro u
    rw [h4]
    exact h1 u

/-! ## Claim C2 -/

/-- Concrete run for the C2 counterexample: 25 pending urls 0..24, url 0
fails, all others succeed, no shutdown, interval 25. -/
def c2Cp : Checkpoint Nat :=
  { completed_urls := []
    pending_urls := List.range 25
    last_page := 3
    total_pages := 3
    completed_listings := 0
    phase := "scraping" }

def c2Run : ExtractResult Nat :=
  extractPhase (fun i => decide (1 ≤ i)) (fun _ => false) 1000 1000 25 c2Cp []
    (List.range 25)

/-- C2 counterexample: the claim says the persisted pending_urls of every
periodic checkpoint contains exactly the urls not yet confirmed complete;
in particular a url that failed this run is still present.  In this run
url 0 fails (it ends in the same-run failure list), yet the periodic save
at iteration 24 persists pending_urls = unique_urls[25:] = [], which does
not contain url 0 even though url 0 was never completed. -/
theorem periodic_pending_omits_failed_counterexample :
    (0 : Nat) ∈ List.range 25 ∧
    c2Run.st.failed = [0] ∧
    c2Run.saves.length = 1 ∧
    (∀ c ∈ c2Run.saves, 0 ∉ c.completed_urls ∧ c.pending_urls = []) := by
  decide

/-- C2 amended: every checkpoint written by the periodic save of lines
492-496 persists pending_urls = unique_urls[j+1:], the positional suffix
after the current iteration - which excludes same-run failed urls among the
first j+1 - while failed urls are kept only in the in-memory failure list;
they re-enter the persisted pending_urls only at the final save of lines
520-524, which stores every unique url not in the completed set. -/
theorem periodic_pending_is_positional_suffix (out1 out2 : Nat → Bool)
    (sd1 sd2 interval : Nat) (cp : Checkpoint α) (listings0 uniq : List α) :
    (∀ c ∈ (extractPhase out1 out2 sd1 sd2 interval cp listings0 uniq).saves,
      suffixSave interval uniq c) ∧
    (∀ u ∈ uniq,
      u ∉ (extractPhase out1 out2 sd1 sd2 interval cp listings0 uniq).finalCp.completed_urls →
      u ∈ (extractPhase out1 out2 sd1 sd2 interval cp listings0 uniq).finalCp.pending_urls) := by
  obtain ⟨h1, h2, h3, h4, h5⟩ :=
    extractPhase_basic out1 out2 sd1 sd2 interval cp listings0 uniq _ rfl
  refine ⟨h2, ?_⟩
  intro u hu hnc
  rw [h4] at hnc
  rw [h5, List.mem_filter]
  exact ⟨hu, by simpa using hnc⟩

/-! ## Claim C3 -/

/-- C3 counterexample: fresh checkpoint, first directory page yields urls
101 and 102, total_pages = 3, shutdown flag set from page 2 on.  The walk is
interrupted with pages 2 and 3 unwalked (last_page = 1), yet the persisted
checkpoint has phase scraping and pending = [101, 102], so the next run
skips discovery entirely (runsDiscovery = false): the persisted phase does
NOT cause discovery to continue from last_discovery_page + 1 as claimed;
pages 2 and 3 are never walked by any later run. -/
theorem discovery_shutdown_phase_flip_counterexample :
    (discoveryRun (initialCheckpoint Nat) [101, 102] (fun p => [200 + p]) 3 1 2).2 = true ∧
    (discoveryRun (initialCheckpoint Nat) [101, 102] (fun p => [200 + p]) 3 1 2).1.phase =
      "scraping" ∧
    (discoveryRun (initialCheckpoint Nat) [101, 102] (fun p => [200 + p]) 3 1 2).1.last_page = 1 ∧
    (discoveryRun (initialCheckpoint Nat) [101, 102] (fun p => [200 + p]) 3 1 2).1.total_pages = 3 ∧
    runsDiscovery (discoveryRun (initialCheckpoint Nat) [101, 102] (fun p => [200 + p]) 3 1 2).1 =
      false := by
  decide

/-- C3 amended: when the shutdown flag interrupts the discovery walk, the
orchestrator does stop walking, persists the current state and returns the
accumulated records unchanged - but the persisted checkpoint carries
phase = scraping (lines 445-447 run even after the break), so on the next
run discovery resumes exactly when the persisted pending_urls is empty
(nothing was discovered); when urls were discovered, discovery is skipped
and the unwalked pages are lost. -/
theorem discovery_shutdown_persists_scraping_phase (cp0 : Checkpoint α)
    (listings0 firstUrls : List α) (pl : Nat → List α) (tp sp sd : Nat)
    (h : (discoveryRun cp0 firstUrls pl tp sp sd).2 = true) :
    discoveryRun cp0 firstUrls pl tp sp sd =
      ((scrapeInterruptedAtDiscovery cp0 listings0 firstUrls pl tp sp sd).1, true) ∧
    (scrapeInterruptedAtDiscovery cp0 listings0 firstUrls pl tp sp sd).1.phase = "scraping" ∧
    (scrapeInterruptedAtDiscovery cp0 listings0 firstUrls pl tp sp sd).2 = listings0 ∧
    runsDiscovery (scrapeInterruptedAtDiscovery cp0 listings0 firstUrls pl tp sp sd).1 =
      (scrapeInterruptedAtDiscovery cp0 listings0 firstUrls pl tp sp sd).1.pending_urls.isEmpty := by
  exact ⟨Prod.ext rfl h, rfl, rfl, runsDiscovery_eq_isEmpty_of_phase rfl⟩

/-- Witness for the C3 amended theorem at a concrete interrupted walk. -/
theorem discovery_shutdown_persists_scraping_phase_witness :
    (discoveryRun (initialCheckpoint Nat) [41, 42] (fun p => [300 + p]) 4 1 3).2 = true ∧
    (discoveryRun (initialCheckpoint Nat) [41, 42] (fun p => [300 + p]) 4 1 3 =
      ((scrapeInterruptedAtDiscovery (initialCheckpoint Nat) [9] [41, 42]
        (fun p => [300 + p]) 4 1 3).1, true) ∧
     (scrapeInterruptedAtDiscovery (initialCheckpoint Nat) [9] [41, 42]
        (fun p => [300 + p]) 4 1 3).1.phase = "scraping" ∧
     (scrapeInterruptedAtDiscovery (initialCheckpoint Nat) [9] [41, 42]
        (fun p => [300 + p]) 4 1 3).2 = [9] ∧
     runsDiscovery (scrapeInterruptedAtDiscovery (initialCheckpoint Nat) [9] [41, 42]
        (fun p => [300 + p]) 4 1 3).1 =
       (scrapeInterruptedAtDiscovery (initialCheckpoint Nat) [9] [41, 42]
        (fun p => [300 + p]) 4 1 3).1.pending_urls.isEmpty) :=
  ⟨by decide, discovery_shutdown_persists_scraping_phase (initialCheckpoint Nat) [9]
    [41, 42] (fun p => [300 + p]) 4 1 3 (by decide)⟩

/-! ## Claim C4 -/

/-- A persisted checkpoint with extraction phase but an empty pending list. -/
def emptyPendingScrapingCp : Checkpoint Nat :=
  { completed_urls := []
    pending_urls := []
    last_page := 7
    total_pages := 7
    completed_listings := 0
    phase := "scraping" }

/-- C4 counterexample: the claim says discovery is skipped exactly when the
phase differs from Discovering OR pending_urls is non-empty.  For a
checkpoint with phase scraping and empty pending_urls the claimed skip
condition holds, yet the code at line 379 runs discovery
(`not checkpoint.get('pending_urls')` is true for an empty list). -/
theorem resume_condition_counterexample :
    (emptyPendingScrapingCp.phase ≠ "collecting" ∨
     emptyPendingScrapingCp.pending_urls ≠ []) ∧
    runsDiscovery emptyPendingScrapingCp = true := by
  decide

/-- C4 amended: the orchestrator skips discovery and goes straight to
extraction exactly when the loaded phase differs from collecting AND
pending_urls is non-empty (line 379 is a disjunction for running discovery,
so its negation - the skip condition - is a conjunction). -/
theorem skip_discovery_iff_not_collecting_and_pending_nonempty {β : Type}
    (cp : Checkpoint β) :
    runsDiscovery cp = false ↔ (cp.phase ≠ "collecting" ∧ cp.pending_urls ≠ []) := by
  unfold runsDiscovery
  rw [Bool.or_eq_false_iff, beq_eq_false_iff_ne]
  constructor
  · rintro ⟨h1, h2⟩
    refine ⟨h1, ?_⟩
    intro hp
    rw [hp] at h2
    simp at h2
  · rintro ⟨h1, h2⟩
    refine ⟨h1, ?_⟩
    rw [← Bool.not_eq_true, List.isEmpty_iff]
    exact h2

/-! ## Claim C5 -/

/-- Concrete run for the C5 counterexample: urls [7, 8]; url 7 succeeds,
url 8 fails on the main pass and the retry; no shutdown. -/
def c5Cp : Checkpoint Nat :=
  { completed_urls := []
    pending_urls := [7, 8]
    last_page := 1
    total_pages := 1
    completed_listings := 0
    phase := "scraping" }

def c5Run : ExtractResult Nat :=
  extractPhase (fun i => decide (i = 0)) (fun _ => false) 1000 1000 25 c5Cp [] [7, 8]

/-- C5 counterexample: the claim says the orchestrator sets phase = Done on
success and the durable files are discarded only in the fully successful
case.  In this run url 8 permanently fails, so the run is not fully
successful (pending_urls = [8] in the final checkpoint) and no Done phase is
ever written (phase stays scraping); yet main() discards the checkpoint
files, because its condition (lines 612-618) is only that some listings were
returned and the shutdown flag is unset - both true here.  The pending
url 8 is therefore lost with the deleted checkpoint. -/
theorem cleanup_despite_failures_counterexample :
    c5Run.interrupted = false ∧
    c5Run.finalCp.pending_urls = [8] ∧
    c5Run.finalCp.phase = "scraping" ∧
    cleanupHappens c5Run.st.listings c5Run.interrupted = true := by
  decide

/-- C5 amended: the code has no Done phase at all - the extraction phase
never changes the phase field (the final save of lines 520-524 leaves it at
its incoming value, scraping) - and main() discards the checkpoint and
progress files exactly when the returned listing list is non-empty and the
shutdown flag was never set, regardless of remaining failures. -/
theorem extraction_preserves_phase_and_cleanup_condition (out1 out2 : Nat → Bool)
    (sd1 sd2 interval : Nat) (cp : Checkpoint α) (listings0 uniq : List α) :
    (extractPhase out1 out2 sd1 sd2 interval cp listings0 uniq).finalCp.phase = cp.phase ∧
    (∀ (l : List α) (b : Bool), cleanupHappens l b = true ↔ (l ≠ [] ∧ b = false)) := by
  obtain ⟨h1, h2, h3, h4, h5⟩ :=
    extractPhase_basic out1 out2 sd1 sd2 interval cp listings0 uniq _ rfl
  refine ⟨h3, ?_⟩
  intro l b
  cases b <;> cases l <;> simp [cleanupHappens]

/-! ## Claim C6 -/

/-- C6: at every checkpoint persisted by the extraction phase - each
periodic save and the final save - and at the checkpoint persisted at the
end of the discovery phase, completed_urls and pending_urls are disjoint.
Hypotheses: unique_urls has no duplicates and excludes already-completed
urls, exactly what lines 437-443 (fresh run) and line 454 (resume)
establish. -/
theorem persisted_checkpoints_disjoint (out1 out2 : Nat → Bool)
    (sd1 sd2 interval : Nat) (cp : Checkpoint α) (listings0 uniq : List α)
    (hnd : uniq.Nodup) (hdisj : ∀ u ∈ uniq, u ∉ cp.completed_urls)
    (cp0 : Checkpoint α) (firstUrls : List α) (pl : Nat → List α) (tp sp sd : Nat) :
    (∀ c ∈ (extractPhase out1 out2 sd1 sd2 interval cp listings0 uniq).saves, cpDisjoint c) ∧
    cpDisjoint (extractPhase out1 out2 sd1 sd2 interval cp listings0 uniq).finalCp ∧
    cpDisjoint (discoveryRun cp0 firstUrls pl tp sp sd).1 := by
  obtain ⟨h1, h2, h3, h4, h5⟩ :=
    extractPhase_basic out1 out2 sd1 sd2 interval cp listings0 uniq _ rfl
  refine ⟨extractPhase_disjoint out1 out2 sd1 sd2 interval cp listings0 uniq _ rfl hnd hdisj,
    ?_, discoveryRun_disjoint cp0 firstUrls pl tp sp sd⟩
  intro u hu
  rw [h5, List.mem_filter] at hu
  rw [h4]
  simpa using hu.2

/-- Witness for C6 at a concrete run with two periodic saves (interval 1). -/
def c6Cp : Checkpoint Nat :=
  { completed_urls := [9]
    pending_urls := [3, 4]
    last_page := 1
    total_pages := 1
    completed_listings := 1
    phase := "scraping" }

theorem persisted_checkpoints_disjoint_witness :
    List.Nodup ([3, 4] : List Nat) ∧
    (∀ u ∈ ([3, 4] : List Nat), u ∉ c6Cp.completed_urls) ∧
    ((∀ c ∈ (extractPhase (fun _ => true) (fun _ => false) 50 50 1 c6Cp [] [3, 4]).saves,
        cpDisjoint c) ∧
     cpDisjoint (extractPhase (fun _ => true) (fun _ => false) 50 50 1 c6Cp [] [3, 4]).finalCp ∧
     cpDisjoint (discoveryRun (initialCheckpoint Nat) [1] (fun p => [p]) 2 1 99).1) :=
  ⟨by decide, by decide,
   persisted_checkpoints_disjoint (fun _ => true) (fun _ => false) 50 50 1 c6Cp [] [3, 4]
     (by decide) (by decide) (initialCheckpoint Nat) [1] (fun p => [p]) 2 1 99⟩

/-! ## Claim C7 -/

/-- C7: the wait after an HTTP 429 is base_wait (10 s) times the 1-based
attempt number: for the 0-based loop variable a the code waits
10 * (a + 1) seconds (line 139), and the wait is monotone in the attempt
index, so successive rate-limit waits on the same URL never decrease. -/
theorem rate_limit_backoff_linear_monotone (retries a b : Nat) (h : a ≤ b) :
    sleepAfter retries a AttemptOutcome.status429 = some (rateLimitWait a) ∧
    rateLimitWait a = 10 * (a + 1) ∧
    rateLimitWait a ≤ rateLimitWait b := by
  refine ⟨rfl, rfl, ?_⟩
  unfold rateLimitWait
  omega

/-- Witness for C7 at attempts 1 and 2. -/
theorem rate_limit_backoff_linear_monotone_witness :
    1 ≤ 2 ∧
    (sleepAfter 5 1 AttemptOutcome.status429 = some (rateLimitWait 1) ∧
     rateLimitWait 1 = 10 * (1 + 1) ∧
     rateLimitWait 1 ≤ rateLimitWait 2) :=
  ⟨by decide, rate_limit_backoff_linear_monotone 5 1 2 (by decide)⟩

/-! ## Claim C8 -/

/-- C8: get_page issues at most `retries` HTTP attempts (the trace contains
at most `retries` fetch events for every outcome sequence and every shutdown
point), and when no attempt returns a 200 body the call returns the typed
failure None rather than raising - the model is a total function into
Option, mirroring that every failure mode of lines 128-151 is caught. -/
theorem get_page_bounded_attempts_total (out : Nat → AttemptOutcome) (retries s : Nat)
    (hfail : ∀ i b, out i ≠ AttemptOutcome.ok b) :
    countFetch (getPageTrace out retries s) ≤ retries ∧
    getPageResult out retries s = none :=
  ⟨getPageGo_countFetch out retries s retries 0 0,
   getPageGo_result_none out retries s hfail retries 0 0⟩

/-- Witness for C8: five attempts that all raise, no shutdown. -/
theorem get_page_bounded_attempts_total_witness :
    (∀ (i : Nat) (b : String),
      (fun (_ : Nat) => AttemptOutcome.exc) i ≠ AttemptOutcome.ok b) ∧
    (countFetch (getPageTrace (fun _ => AttemptOutcome.exc) 5 1000) ≤ 5 ∧
     getPageResult (fun _ => AttemptOutcome.exc) 5 1000 = none) :=
  ⟨fun _ _ h => AttemptOutcome.noConfusion h,
   get_page_bounded_attempts_total (fun _ => AttemptOutcome.exc) 5 1000
     (fun _ _ h => AttemptOutcome.noConfusion h)⟩

/-! ## Claim C9 -/

/-- C9 counterexample: the claim says get_page checks the shutdown flag
before each attempt AND before each wait, and once set never enters another
wait.  With every attempt rate-limited and the flag becoming set at event
index 2 (right after the check at index 0 and the attempt at index 1), the
trace is [check, fetch, sleep 10, check]: the 10-second backoff wait at
index 2 is entered while the flag is already set, with no flag check
between the attempt and the wait (line 141 sleeps unconditionally; the only
check is at line 131, the top of the loop). -/
theorem get_page_sleep_after_shutdown_counterexample :
    getPageTrace (fun _ => AttemptOutcome.status429) 5 2 =
      [FetchEv.check, FetchEv.fetch, FetchEv.sleep 10, FetchEv.check] := by
  decide

/-- C9 amended: the shutdown flag is checked only at the top of each attempt
(line 131), not before waits; consequently no HTTP attempt is ever initiated
strictly after the flag is set - every fetch event in the trace has index at
most the flag-set point s - but the backoff wait owed by the attempt already
in progress is still performed after the flag is set. -/
theorem get_page_no_fetch_after_shutdown (out : Nat → AttemptOutcome) (retries s i : Nat)
    (h : (getPageTrace out retries s)[i]? = some FetchEv.fetch) : i ≤ s := by
  have h2 := getPageGo_fetch_le out retries s retries 0 0 i h
  omega

/-- Witness for the C9 amended theorem: a successful first attempt has its
fetch at index 1, below the flag-set point 7. -/
theorem get_page_no_fetch_after_shutdown_witness :
    (getPageTrace (fun _ => AttemptOutcome.ok "page") 5 7)[1]? = some FetchEv.fetch ∧
    1 ≤ 7 :=
  ⟨by decide, get_page_no_fetch_after_shutdown (fun _ => AttemptOutcome.ok "page") 5 7 1
    (by decide)⟩

/-! ## Claim C10 -/

/-- C10: the extraction loop awaits each fetch+extract unit before starting
the next (line 478), so with the K-slot semaphore made explicit the loop
returns exactly the sequential fold over pending_urls - same record list,
completed set and failure list - for every K at least 1, the result does not
depend on K, and at most one unit ever holds a semaphore slot (the maximum
in-flight count is at most 1). -/
theorem extract_loop_semaphore_refines_fold (K : Nat) (out : Nat → Bool) (sd : Nat)
    (urls : List α) (s0 : List α × List α × List α) (hK : 1 ≤ K) :
    (∃ m, m ≤ 1 ∧ extractLoopSem K out sd 0 urls s0 0 =
       some (extractFoldSeq out sd 0 urls s0, m)) ∧
    (∀ K2, 1 ≤ K2 → extractLoopSem K out sd 0 urls s0 0 =
       extractLoopSem K2 out sd 0 urls s0 0) := by
  constructor
  · obtain ⟨m, hm, heq⟩ := extractLoopSem_eq_fold K hK out sd urls 0 s0 0
    exact ⟨m, by simpa using hm, heq⟩
  · intro K2 hK2
    exact extractLoopSem_K_irrelevant K K2 hK hK2 out sd urls 0 s0 0

/-- Witness for C10 at K = 2 on three urls with one failure. -/
theorem extract_loop_semaphore_refines_fold_witness :
    1 ≤ 2 ∧
    ((∃ m, m ≤ 1 ∧
        extractLoopSem 2 (fun i => decide (i ≠ 1)) 1000 0 ([5, 6, 7] : List Nat)
          ([], [], []) 0 =
        some (extractFoldSeq (fun i => decide (i ≠ 1)) 1000 0 ([5, 6, 7] : List Nat)
          ([], [], []), m)) ∧
     (∀ K2, 1 ≤ K2 →
        extractLoopSem 2 (fun i => decide (i ≠ 1)) 1000 0 ([5, 6, 7] : List Nat)
          ([], [], []) 0 =
        extractLoopSem K2 (fun i => decide (i ≠ 1)) 1000 0 ([5, 6, 7] : List Nat)
          ([], [], []) 0)) :=
  ⟨by decide, extract_loop_semaphore_refines_fold 2 (fun i => decide (i ≠ 1)) 1000
    ([5, 6, 7] : List Nat) ([], [], []) (by decide)⟩

end Scraper
